import Mathlib

/-
Verification of the AISH command-resolution pipeline.

Shallow embedding of the Python sources `parser.py`, `context.py`,
`executor.py`, `core_commands.py` (the COMMAND_REGISTRY key set) and
`utils.py`.  Python strings are modelled as `List Char`; Python `None`
payloads as `Option`; the tables `patterns.json` / `commands.json` are
data, not code, so they appear as parameters (association lists).

Note on `parser.py`: the file defines `parse_command` twice; the second
definition (lines 56-159) shadows the first at import time, so only the
second is embedded here.
-/

namespace AISH

set_option maxRecDepth 40000

abbrev Str := List Char

abbrev Patterns := List (Str × Str)

abbrev Commands := List (Str × List (Str × Str))

/-- Python `\s` for the ASCII range (space, tab, newline, carriage return,
vertical tab, form feed), as used by `str.strip`, `str.split` and the
regex `\s+` in `parser.normalize`. -/
def isSpaceChar (c : Char) : Bool :=
  c.toNat == 32 || c.toNat == 9 || c.toNat == 10 || c.toNat == 13 || c.toNat == 11 || c.toNat == 12

/-- Python `str.lower` on one ASCII character. -/
def asciiLower (c : Char) : Char :=
  if 65 ≤ c.toNat && c.toNat ≤ 90 then Char.ofNat (c.toNat + 32) else c

/-- Python `str.lower`. -/
def pyLower (s : Str) : Str := s.map asciiLower

/-- Python `str.lstrip()`. -/
def lstrip (s : Str) : Str := s.dropWhile isSpaceChar

/-- Python `str.rstrip()`. -/
def rstrip (s : Str) : Str := (s.reverse.dropWhile isSpaceChar).reverse

/-- Python `str.strip()`. -/
def pyStrip (s : Str) : Str := rstrip (lstrip s)

/-- Fuelled worker for `collapseWs`; fuel `s.length + 1` always suffices
because every round consumes at least one character. -/
def collapseWsF : Nat → Str → Str
  | 0, _ => []
  | _, [] => []
  | fuel + 1, c :: rest =>
    if isSpaceChar c then ' ' :: collapseWsF fuel (rest.dropWhile isSpaceChar)
    else c :: collapseWsF fuel rest

/-- Collapse every internal run of whitespace to a single space; applied to an
already stripped string this is `re.sub(r"\s+", " ", s)`. -/
def collapseWs (s : Str) : Str := collapseWsF (s.length + 1) s

/-- The helper `normalize` of parser.py: `re.sub(r"\s+", " ", s.strip())`. -/
def normalize (s : Str) : Str := collapseWs (pyStrip s)

/-- Fuelled worker for `pySplit`; fuel `s.length + 1` always suffices because
every round consumes at least one character. -/
def pySplitF : Nat → Str → List Str
  | 0, _ => []
  | fuel + 1, s =>
    match s.dropWhile isSpaceChar with
    | [] => []
    | c :: rest =>
      (c :: rest.takeWhile (fun x => !isSpaceChar x)) ::
        pySplitF fuel (rest.dropWhile (fun x => !isSpaceChar x))

/-- Python `str.split()` (split on whitespace runs, discarding empties). -/
def pySplit (s : Str) : List Str := pySplitF (s.length + 1) s

/-- Python substring containment `pat in hay`. -/
def containsSub : Str → Str → Bool
  | [], pat => pat.isPrefixOf ([] : Str)
  | c :: t, pat => pat.isPrefixOf (c :: t) || containsSub t pat

/-- Python `x or y` where `x` is a string-or-None expression: `None` and the
empty string are falsy. -/
def strOrD (o : Option Str) (d : Str) : Str :=
  match o with
  | some v => if v == [] then d else v
  | none => d

/-- Python f-string interpolation of a string-or-None value: `None` prints as
the four characters `None`. -/
def optStr (o : Option Str) : Str :=
  match o with
  | some v => v
  | none => ("None").data

/-- Python `' '.join` over a list of strings. -/
def joinSp : List Str → Str
  | [] => []
  | [x] => x
  | x :: y :: rest => x ++ ' ' :: joinSp (y :: rest)

/-
Embedding of `difflib.get_close_matches(word, possibilities, n=1, cutoff=0.6)`
as used by parser.py's fuzzy tier, for `SequenceMatcher(None, x, word)` with
the default `isjunk=None` and `autojunk=True`.  With `isjunk=None` the junk
set `bjunk` is always empty, so `isbjunk` is constantly false: the two
"junk" extension loops of `find_longest_match` never fire and are omitted;
the two ordinary extension loops keep only their bound and char-equality
tests.  Autojunk ("popular" elements of sequences of length >= 200 are
dropped from the index `b2j`) is embedded.  Similarity values are exact
rationals `2*M/(len a + len b)`; CPython compares the corresponding IEEE
doubles, which agree with the rational comparison against 0.6 for all
string lengths below astronomical sizes.
-/

/-- Number of occurrences of `c` in `b`. -/
def countEq (b : Str) (c : Char) : Nat := (b.filter (fun x => x == c)).length

/-- Autojunk: an element of `b` is "popular" when `len(b) >= 200` and it
occurs more than `len(b) // 100 + 1` times. -/
def isAutoJunk (b : Str) (c : Char) : Bool :=
  decide (200 ≤ b.length) && decide (b.length / 100 + 1 < countEq b c)

/-- Character of `l` at index `i` (indices produced internally are in range). -/
def chAt (l : Str) (i : Nat) : Char := l.getD i (Char.ofNat 0)

/-- The index map `b2j`: ascending indices of `c` in `b`, with popular
elements purged by autojunk. -/
def b2j (b : Str) (c : Char) : List Nat :=
  if isAutoJunk b c then []
  else (List.range b.length).filter (fun j => chAt b j == c)

/-- One row of the `find_longest_match` dynamic program: fold over the
candidate `j` positions for `a[i]`, building the fresh `newj2len` map and
updating the best block.  State: `(newj2len, besti, bestj, bestsize)`. -/
def innerFold (j2len : List (Nat × Nat)) (i : Nat) (js : List Nat)
    (init : List (Nat × Nat) × Nat × Nat × Nat) : List (Nat × Nat) × Nat × Nat × Nat :=
  js.foldl
    (fun st j =>
      let k := (if j == 0 then 0 else (List.lookup (j - 1) j2len).getD 0) + 1
      let m := (j, k) :: st.1
      if st.2.2.2 < k then (m, i + 1 - k, j + 1 - k, k)
      else (m, st.2.1, st.2.2.1, st.2.2.2))
    init

/-- The main loop of `find_longest_match` (before the extension loops). -/
def outerFold (a b : Str) (alo ahi blo bhi : Nat) : Nat × Nat × Nat :=
  let r :=
    (List.range' alo (ahi - alo)).foldl
      (fun (st : List (Nat × Nat) × Nat × Nat × Nat) i =>
        let js := ((b2j b (chAt a i)).filter (fun j => decide (blo ≤ j))).takeWhile
          (fun j => decide (j < bhi))
        let folded := innerFold st.1 i js ([], st.2.1, st.2.2.1, st.2.2.2)
        folded)
      ([], alo, blo, 0)
  r.2

/-- Leftward extension loop of `find_longest_match` (fuel-based; fuel `besti`
suffices since `besti` strictly decreases and stays above `alo`). -/
def extendLo (a b : Str) (alo blo : Nat) : Nat → Nat × Nat × Nat → Nat × Nat × Nat
  | 0, st => st
  | fuel + 1, (besti, bestj, bestsize) =>
    if decide (alo < besti) && decide (blo < bestj) &&
        (chAt a (besti - 1) == chAt b (bestj - 1)) then
      extendLo a b alo blo fuel (besti - 1, bestj - 1, bestsize + 1)
    else (besti, bestj, bestsize)

/-- Rightward extension loop of `find_longest_match` (fuel-based; fuel `ahi`
suffices since `besti + bestsize` strictly increases and stays below `ahi`). -/
def extendHi (a b : Str) (ahi bhi : Nat) : Nat → Nat × Nat × Nat → Nat × Nat × Nat
  | 0, st => st
  | fuel + 1, (besti, bestj, bestsize) =>
    if decide (besti + bestsize < ahi) && decide (bestj + bestsize < bhi) &&
        (chAt a (besti + bestsize) == chAt b (bestj + bestsize)) then
      extendHi a b ahi bhi fuel (besti, bestj, bestsize + 1)
    else (besti, bestj, bestsize)

/-- `SequenceMatcher.find_longest_match(alo, ahi, blo, bhi)` for sequences
`a` (seq1) and `b` (seq2), default junk settings. -/
def find_longest_match (a b : Str) (alo ahi blo bhi : Nat) : Nat × Nat × Nat :=
  extendHi a b ahi bhi ahi (extendLo a b alo blo (outerFold a b alo ahi blo bhi).1
    (outerFold a b alo ahi blo bhi))

/-- Total size of the matching blocks reported by
`SequenceMatcher.get_matching_blocks` on the window `[alo,ahi) x [blo,bhi)`
(the queue of the Python implementation, as a recursion; fuel
`len a + len b + 1` always suffices since each sub-window is strictly
smaller). -/
def blocksTotal (a b : Str) : Nat → Nat → Nat → Nat → Nat → Nat
  | 0, _, _, _, _ => 0
  | fuel + 1, alo, ahi, blo, bhi =>
    let m := find_longest_match a b alo ahi blo bhi
    if m.2.2 == 0 then 0
    else
      m.2.2 +
        (if decide (alo < m.1) && decide (blo < m.2.1) then
          blocksTotal a b fuel alo m.1 blo m.2.1 else 0) +
        (if decide (m.1 + m.2.2 < ahi) && decide (m.2.1 + m.2.2 < bhi) then
          blocksTotal a b fuel (m.1 + m.2.2) ahi (m.2.1 + m.2.2) bhi else 0)

/-- The quantity `M` of `SequenceMatcher.ratio`: total size of all matching
blocks between `a` and `b`. -/
def matchTotal (a b : Str) : Nat :=
  blocksTotal a b (a.length + b.length + 1) 0 a.length 0 b.length

/-- `SequenceMatcher.ratio()` as an exact rational: `2*M/T`, and `1` when
both sequences are empty (difflib `_calculate_ratio`). -/
def ratioQ (a b : Str) : ℚ :=
  if a.length + b.length == 0 then 1
  else mkRat (2 * matchTotal a b) (a.length + b.length)

/-- The cutoff test of `get_close_matches` at the fixed cutoff 0.6: a
candidate is kept iff its ratio is at least 0.6 (the `real_quick_ratio` and
`quick_ratio` pre-filters are upper bounds of `ratio`, so the conjunction of
the three tests is equivalent to this single test). -/
def cutoffAccept (a b : Str) : Bool := decide (mkRat 3 5 ≤ ratioQ a b)

/-- Python string comparison (strict less-than, by code points). -/
def strLtB : Str → Str → Bool
  | [], [] => false
  | [], _ :: _ => true
  | _ :: _, [] => false
  | a :: as, b :: bs =>
    if a.toNat < b.toNat then true
    else if b.toNat < a.toNat then false
    else strLtB as bs

/-- `difflib.get_close_matches(word, keys, n=1, cutoff=0.6)`, returning the
single best candidate if any passes the cutoff.  `heapq.nlargest(1, ...)`
over `(ratio, key)` pairs picks the maximal pair ordered by ratio and then
by string comparison. -/
def get_close_matches (word : Str) (keys : List Str) : Option Str :=
  match keys.filter (fun x => cutoffAccept x word) with
  | [] => none
  | c :: rest =>
    some (rest.foldl
      (fun best x =>
        if decide (ratioQ best word < ratioQ x word) ||
            (decide (ratioQ x word = ratioQ best word) && strLtB best x) then x
        else best)
      c)

/-- The key set of `COMMAND_REGISTRY` (core_commands.py lines 684-710).  The
registry is never mutated elsewhere in the repository; builtin callables are
identified here by their registry key. -/
def registry_keys : List Str :=
  [("sysinfo").data, ("battery").data, ("z-omode").data, ("zip").data,
   ("unzip").data, ("search").data, ("renamebulk").data, ("ping").data,
   ("traceroute").data, ("scanport").data, ("ps").data, ("kill").data,
   ("wc").data, ("formatjson").data, ("history").data,
   ("viewhistoryfile").data, ("historyjson").data, ("macro").data,
   ("macro_create").data, ("macro_run").data, ("macro_list").data,
   ("macro_delete").data, ("macro_help").data, ("macro_debug").data,
   ("macro_test").data]

/-- Python `key in COMMAND_REGISTRY`. -/
def inRegistry (s : Str) : Bool := registry_keys.contains s

/-- The tagged action returned by `parse_command`: `("builtin", fn, args)`
with the callable identified by its registry key, or `("shell", cmd)` whose
payload may be Python `None` (hence `Option Str`).  The overall result of
`parse_command` is an `Option Action`, `none` modelling the Python `None`
returned for empty input. -/
inductive Action where
  | builtin (name : Str) (args : List Str)
  | shell (cmd : Option Str)
deriving DecidableEq

/-- Python `entry.get(current_os, entry.get("linux"))` on a commands-table
entry; the result is `None` when both keys are absent. -/
def osTemplate (entry : List (Str × Str)) (os : Str) : Option Str :=
  match List.lookup os entry with
  | some t => some t
  | none => List.lookup (("linux").data) entry

/-- Python `f"{base} {' '.join(tail)}".strip()` with `base` possibly `None`
(which the f-string renders as the literal `None`). -/
def mkShellFull (base : Option Str) (tail : List Str) : Str :=
  pyStrip (optStr base ++ ' ' :: joinSp tail)

/-- Resolution of a pattern-table value (parser.py lines 89-96 and 126-131):
a value that is a registry key becomes a builtin action with no arguments; a
value that is a commands-table key becomes a shell action from the OS
template; otherwise nothing is returned and the caller falls through. -/
def resolve_pattern_value (commands : Commands) (os : Str) (key : Str) : Option Action :=
  if inRegistry key then some (Action.builtin key [])
  else
    match List.lookup key commands with
    | some entry => some (Action.shell (osTemplate entry os))
    | none => none

/-- The eight phrase prefixes of the macro branches (parser.py lines 65-86
and 141-156), in source order. -/
def mb_phrases : List Str :=
  [("create macro").data, ("make macro").data, ("run macro").data,
   ("execute macro").data, ("list macros").data, ("show macros").data,
   ("delete macro").data, ("remove macro").data]

/-- The `startswith` chain of parser.py lines 65-86 (runs before tier 1). -/
def mbranch (uiLower : Str) : Option Action :=
  if List.isPrefixOf (("create macro").data) uiLower then
    some (Action.builtin (("macro_create").data) [pyStrip (uiLower.drop 12)])
  else if List.isPrefixOf (("make macro").data) uiLower then
    some (Action.builtin (("macro_create").data) [pyStrip (uiLower.drop 10)])
  else if List.isPrefixOf (("run macro").data) uiLower then
    some (Action.builtin (("macro_run").data) [pyStrip (uiLower.drop 9)])
  else if List.isPrefixOf (("execute macro").data) uiLower then
    some (Action.builtin (("macro_run").data) [pyStrip (uiLower.drop 13)])
  else if List.isPrefixOf (("list macros").data) uiLower then
    some (Action.builtin (("macro_list").data) [])
  else if List.isPrefixOf (("show macros").data) uiLower then
    some (Action.builtin (("macro_list").data) [])
  else if List.isPrefixOf (("delete macro").data) uiLower then
    some (Action.builtin (("macro_delete").data) [pyStrip (uiLower.drop 12)])
  else if List.isPrefixOf (("remove macro").data) uiLower then
    some (Action.builtin (("macro_delete").data) [pyStrip (uiLower.drop 12)])
  else none

/-- Tier 1 of parser.py (lines 88-96): exact whole-input pattern lookup. -/
def tier1_pattern (patterns : Patterns) (commands : Commands) (os : Str)
    (uiLower : Str) : Option Action :=
  match List.lookup uiLower patterns with
  | some key => resolve_pattern_value commands os key
  | none => none

/-- The `head in commands_json` check of parser.py (lines 117-121). -/
def tier2_cmd (commands : Commands) (os : Str) (head : Str) (tail : List Str) :
    Option Action :=
  match List.lookup head commands with
  | some entry => some (Action.shell (some (mkShellFull (osTemplate entry os) tail)))
  | none => none

/-- Tier 2 of parser.py (lines 98-121): builtin head, then pattern head
(falling through to the commands check when the mapped key resolves to
neither table), then commands head. -/
def tier2_head (patterns : Patterns) (commands : Commands) (os : Str)
    (head : Str) (tail : List Str) : Option Action :=
  if inRegistry head then some (Action.builtin head tail)
  else
    match List.lookup head patterns with
    | some mapped =>
      if inRegistry mapped then some (Action.builtin mapped tail)
      else
        match List.lookup mapped commands with
        | some entry =>
          some (Action.shell (some (mkShellFull (osTemplate entry os) tail)))
        | none => tier2_cmd commands os head tail
    | none => tier2_cmd commands os head tail

/-- Tier 3a of parser.py (lines 124-131): fuzzy whole-input match over the
pattern keys; on success the tail tokens play no part in the result. -/
def tier3_fuzzy_pattern (patterns : Patterns) (commands : Commands) (os : Str)
    (uiLower : Str) : Option Action :=
  match get_close_matches uiLower (patterns.map Prod.fst) with
  | some cand =>
    match List.lookup cand patterns with
    | some key => resolve_pattern_value commands os key
    | none => none
  | none => none

/-- Tier 3b of parser.py (lines 133-137): fuzzy head match over the command
keys, appending the tail tokens. -/
def tier3_fuzzy_cmd (commands : Commands) (os : Str) (head : Str)
    (tail : List Str) : Option Action :=
  match get_close_matches head (commands.map Prod.fst) with
  | some cand =>
    some (Action.shell (some
      (mkShellFull (osTemplate ((List.lookup cand commands).getD []) os) tail)))
  | none => none

/-- The prefix loop of parser.py lines 141-156.  It re-tests the same eight
prefixes as `mbranch` and is therefore unreachable (kept for fidelity);
unlike `mbranch` it passes no argument when the remainder is empty. -/
def mloop (uiLower : Str) : Option Action :=
  let rem := fun (k : Nat) =>
    let r := pyStrip (uiLower.drop k)
    if r == [] then ([] : List Str) else [r]
  if List.isPrefixOf (("create macro").data) uiLower then
    some (Action.builtin (("macro_create").data) (rem 12))
  else if List.isPrefixOf (("make macro").data) uiLower then
    some (Action.builtin (("macro_create").data) (rem 10))
  else if List.isPrefixOf (("run macro").data) uiLower then
    some (Action.builtin (("macro_run").data) (rem 9))
  else if List.isPrefixOf (("execute macro").data) uiLower then
    some (Action.builtin (("macro_run").data) (rem 13))
  else if List.isPrefixOf (("list macros").data) uiLower then
    some (Action.builtin (("macro_list").data) (rem 11))
  else if List.isPrefixOf (("show macros").data) uiLower then
    some (Action.builtin (("macro_list").data) (rem 11))
  else if List.isPrefixOf (("delete macro").data) uiLower then
    some (Action.builtin (("macro_delete").data) (rem 12))
  else if List.isPrefixOf (("remove macro").data) uiLower then
    some (Action.builtin (("macro_delete").data) (rem 12))
  else none

/-- Chain two stages of the parser: the first stage that returns wins. -/
def ob (x : Option Action) (y : Unit → Option Action) : Option Action :=
  match x with
  | some a => some a
  | none => y ()

/-- The effective `parse_command` of parser.py (the second definition, lines
56-159, which shadows the first at import time).  Returns `none` exactly for
input that is empty after normalization. -/
def parse_command (user_input : Str) (commands : Commands) (patterns : Patterns)
    (current_os : Str) : Option Action :=
  let ui := normalize user_input
  if ui == [] then none
  else
    let uiLower := pyLower ui
    let parts := pySplit ui
    let head := pyLower (parts.headD [])
    let tail := parts.tail
    ob (mbranch uiLower) (fun _ =>
    ob (tier1_pattern patterns commands current_os uiLower) (fun _ =>
    ob (tier2_head patterns commands current_os head tail) (fun _ =>
    ob (tier3_fuzzy_pattern patterns commands current_os uiLower) (fun _ =>
    ob (tier3_fuzzy_cmd commands current_os head tail) (fun _ =>
    ob (mloop uiLower) (fun _ =>
    some (Action.shell (some ui))))))))

/-
Embedding of context.py: the `AishContext` store and
`resolve_with_context`.  Entity-dictionary values are heterogeneous in
Python (strings, lists of strings, `None`), hence `EntVal`.  Dictionary
assignment is modelled by prepending, with lookup returning the most recent
binding.  `OS_NAME = detect_os()` (utils.py: `platform.system().lower()`)
is a parameter `os_name` of the resolver; the comparisons inside
`resolve_with_context` against the capitalised literals `"Windows"`,
`"Linux"`, `"Darwin"` are embedded exactly as written.
-/

/-- A value stored in the entities dictionary. -/
inductive EntVal where
  | strv (v : Str)
  | listv (vs : List Str)
  | nullv
deriving DecidableEq

/-- One history entry appended by `AishContext.update`. -/
structure HistoryEntry where
  command : Str
  result : Option Str
  type_ : Str
  entities : List (Str × EntVal)
  exit_code : Int
deriving DecidableEq

/-- The context store: session history plus the entities dictionary. -/
structure AishContext where
  history : List HistoryEntry
  entities : List (Str × EntVal)
deriving DecidableEq

/-- The initial entities dictionary of `AishContext.__init__`. -/
def init_entities : List (Str × EntVal) :=
  [(("last_files").data, EntVal.listv []), (("last_dir").data, EntVal.nullv),
   (("last_host").data, EntVal.nullv), (("last_process").data, EntVal.nullv),
   (("last_output").data, EntVal.nullv)]

/-- A fresh context (`AishContext()`). -/
def AishContext.init : AishContext := ⟨[], init_entities⟩

/-- Dictionary read `m.get(k)`. -/
def dget (m : List (Str × EntVal)) (k : Str) : Option EntVal := List.lookup k m

/-- Dictionary assignment `m[k] = v`, modelled by prepending (lookup sees the
latest binding). -/
def dset (m : List (Str × EntVal)) (k : Str) (v : EntVal) : List (Str × EntVal) :=
  (k, v) :: m

/-- Python truthiness of an entity read: missing keys, `None`, empty strings
and empty lists are falsy. -/
def truthyEnt : Option EntVal → Bool
  | none => false
  | some (EntVal.strv v) => !(v == [])
  | some (EntVal.listv vs) => !(vs == [])
  | some EntVal.nullv => false

/-- Python truthiness of a string-or-None value. -/
def truthyStr : Option Str → Bool
  | none => false
  | some v => !(v == [])

/-- `AishContext.update(command, result, type_, entities, exit_code)`
(context.py lines 27-41): append the entry; if the `entities` argument is
truthy, assign `last_<k>` for each of its items; if `result` is truthy,
assign `last_output`. -/
def AishContext.update (ctx : AishContext) (command : Str) (result : Option Str)
    (type_ : Str) (entities : Option (List (Str × EntVal))) (exit_code : Int) :
    AishContext :=
  let entry : HistoryEntry := ⟨command, result, type_, entities.getD [], exit_code⟩
  let hist := ctx.history ++ [entry]
  let ents1 :=
    match entities with
    | some m =>
      if m == [] then ctx.entities
      else m.foldl (fun acc p => dset acc ((("last_").data) ++ p.1) p.2) ctx.entities
    | none => ctx.entities
  let ents2 :=
    if truthyStr result then dset ents1 (("last_output").data) (EntVal.strv (result.getD []))
    else ents1
  ⟨hist, ents2⟩

/-- `AishContext.last_command(n)` (context.py lines 43-45):
`self.history[-n] if len(self.history) >= n else None`, for an arbitrary
integer `n` with Python negative-index semantics; `.error` models the
`IndexError` a non-positive `n` can raise. -/
def AishContext.last_command (ctx : AishContext) (n : Int) :
    Except Unit (Option HistoryEntry) :=
  if n ≤ (ctx.history.length : Int) then
    let idx : Int := -n
    let idx2 : Int := if idx < 0 then (ctx.history.length : Int) + idx else idx
    if decide (0 ≤ idx2) && decide (idx2 < (ctx.history.length : Int)) then
      Except.ok (ctx.history.get? idx2.toNat)
    else Except.error ()
  else Except.ok none

/-- `AishContext.last_cmd_str(n)` (context.py lines 47-50). -/
def AishContext.last_cmd_str (ctx : AishContext) (n : Int) : Except Unit (Option Str) :=
  match ctx.last_command n with
  | Except.ok (some e) => Except.ok (some e.command)
  | Except.ok none => Except.ok none
  | Except.error e => Except.error e

/-- `ctx.last_cmd_str()` with the default `n=1`, which never raises. -/
def last_cmd_1 (ctx : AishContext) : Option Str :=
  match ctx.last_cmd_str 1 with
  | Except.ok v => v
  | Except.error _ => none

/-- Decimal digit test on a character. -/
def isDigitCh (c : Char) : Bool := 48 ≤ c.toNat && c.toNat ≤ 57

/-- All characters are decimal digits. -/
def allDigits (l : Str) : Bool := l.all isDigitCh

/-- Numeric value of a digit string. -/
def digitsVal (l : Str) : Nat := l.foldl (fun acc c => 10 * acc + (c.toNat - 48)) 0

/-- Python `int(s)` on the strings relevant here: surrounding whitespace is
stripped, an optional sign is followed by one or more decimal digits;
`none` models the `ValueError` of any other shape. -/
def pyInt (s : Str) : Option Int :=
  let t := pyStrip s
  match t with
  | [] => none
  | c :: rest =>
    if c == '-' then
      if !(rest == []) && allDigits rest then some (-(digitsVal rest : Int)) else none
    else if c == '+' then
      if !(rest == []) && allDigits rest then some ((digitsVal rest : Int)) else none
    else if allDigits t then some ((digitsVal t : Int)) else none

/-- The four exact repeat tokens of context.py line 62. -/
def repeatTokens : List Str :=
  [("again").data, ("repeat").data, ("that").data, ("same").data]

/-- The `try` block of context.py lines 66-70, entered when the text
contains `commands ago`: parse the first token as an integer and return
`ctx.last_cmd_str(n) or user_input`; `none` models any exception, after
which the resolver falls through to the later rules. -/
def ago_branch (ctx : AishContext) (user_input text : Str) : Option Str :=
  match pySplit text with
  | [] => none
  | tok :: _ =>
    match pyInt tok with
    | none => none
    | some n =>
      match ctx.last_cmd_str n with
      | Except.ok c => some (strOrD c user_input)
      | Except.error _ => none

/-- Synonym keywords for "more detail" (context.py line 81). -/
def detail_kws : List Str :=
  [("detailed").data, ("in detail").data, ("show details").data, ("with details").data]

/-- Synonym keywords for size sorting (context.py line 90). -/
def size_kws : List Str :=
  [("by size").data, ("sorted by size").data, ("largest first").data, ("order by size").data]

/-- Navigation keywords (context.py line 99). -/
def nav_kws : List Str :=
  [("now in").data, ("go to").data, ("move to").data, ("switch to").data]

/-- Single-quote character, for the Python repr of a list value. -/
def sq : Char := Char.ofNat 39

/-- Python repr of one string inside a list. -/
def quoteS (v : Str) : Str := sq :: v ++ [sq]

/-- Comma-separated quoted items of a Python list repr. -/
def joinCommaQ : List Str → Str
  | [] => []
  | [x] => quoteS x
  | x :: y :: rest => quoteS x ++ ',' :: ' ' :: joinCommaQ (y :: rest)

/-- Python repr of a list of strings, as an f-string renders it. -/
def reprList (vs : List Str) : Str := '[' :: joinCommaQ vs ++ [']']

/-- F-string interpolation of an entity value. -/
def entFmt : EntVal → Str
  | EntVal.strv v => v
  | EntVal.nullv => ("None").data
  | EntVal.listv vs => reprList vs

/-- Python `' '.join(value)` on an entity value: joining a string iterates
its characters.  The rule guarding this call requires a truthy value, so the
`None` case (a `TypeError` in Python) is unreachable. -/
def joinEnt : EntVal → Str
  | EntVal.listv vs => joinSp vs
  | EntVal.strv s => joinSp (s.map (fun c => [c]))
  | EntVal.nullv => []

/-- Any of the keywords occurs in the text. -/
def anyKw (kws : List Str) (text : Str) : Bool := kws.any (fun k => containsSub text k)

/-- The "more detail" rule body (context.py lines 82-87): note the
comparisons against capitalised OS names. -/
def detail_rule (os_name last_cmd : Str) : Option Str :=
  if os_name == ("Linux").data || os_name == ("Darwin").data then
    if containsSub last_cmd (("ls").data) then some (last_cmd ++ (" -la").data) else none
  else if os_name == ("Windows").data then
    if containsSub last_cmd (("dir").data) then some (last_cmd ++ (" /q /a").data) else none
  else none

/-- The size-sorting rule body (context.py lines 91-96). -/
def size_rule (os_name last_cmd : Str) : Option Str :=
  if os_name == ("Linux").data || os_name == ("Darwin").data then
    if containsSub last_cmd (("ls").data) then some (last_cmd ++ (" -lhS").data) else none
  else if os_name == ("Windows").data then
    if containsSub last_cmd (("dir").data) then some (last_cmd ++ (" /o:-s").data) else none
  else none

/-- The navigation rule body (context.py lines 100-108). -/
def nav_rule (last_cmd text : Str) : Option Str :=
  let parts := pySplit text
  let tryAt := fun (w : Str) =>
    if parts.contains w then
      match parts.findIdx? (fun p => p == w) with
      | some idx =>
        if idx + 1 < parts.length then some (last_cmd ++ ' ' :: parts.getD (idx + 1) [])
        else none
      | none => none
    else none
  match tryAt (("in").data) with
  | some r => some r
  | none => tryAt (("to").data)

/-- The three modifier rules (context.py lines 81-108), each guarded by its
keyword test and a truthy previous command, falling through on no return. -/
def rules678 (os_name : Str) (last_cmd : Option Str) (text : Str) : Option Str :=
  match (if anyKw detail_kws text && truthyStr last_cmd then
      detail_rule os_name (last_cmd.getD []) else none) with
  | some r => some r
  | none =>
    match (if anyKw size_kws text && truthyStr last_cmd then
        size_rule os_name (last_cmd.getD []) else none) with
    | some r => some r
    | none =>
      if anyKw nav_kws text && truthyStr last_cmd then nav_rule (last_cmd.getD []) text
      else none

/-- `resolve_with_context(user_input, ctx)` of context.py lines 53-111, with
`OS_NAME` as the parameter `os_name`. -/
def resolve_with_context (user_input : Str) (ctx : AishContext) (os_name : Str) : Str :=
  let text := pyLower (pyStrip user_input)
  let last_cmd := last_cmd_1 ctx
  if repeatTokens.contains text then strOrD last_cmd user_input
  else
    match (if containsSub text (("commands ago").data) then
        ago_branch ctx user_input text else none) with
    | some r => r
    | none =>
      if containsSub text (("them").data) &&
          truthyEnt (dget ctx.entities (("last_files").data)) then
        ("open ").data ++ joinEnt ((dget ctx.entities (("last_files").data)).getD EntVal.nullv)
      else if containsSub text (("it").data) &&
          truthyEnt (dget ctx.entities (("last_process").data)) then
        ("kill ").data ++ entFmt ((dget ctx.entities (("last_process").data)).getD EntVal.nullv)
      else if containsSub text (("there").data) &&
          truthyEnt (dget ctx.entities (("last_dir").data)) then
        (if !(os_name == ("Windows").data) then ("ls ").data else ("dir ").data) ++
          entFmt ((dget ctx.entities (("last_dir").data)).getD EntVal.nullv)
      else
        match rules678 os_name last_cmd text with
        | some r => r
        | none => user_input

/-- `executor.resolve_command(user_input)` (executor.py lines 141-155), with
the module-level `PATTERNS`, `COMMANDS_JSON` and `detect_os()` as
parameters.  The result may be Python `None` when the matched entry lacks
both OS keys. -/
def resolve_command (user_input : Str) (patterns : Patterns) (commands : Commands)
    (os_type : Str) : Option Str :=
  let u := pyLower (pyStrip user_input)
  match List.lookup u patterns with
  | none => some u
  | some ck =>
    if ck == [] then some u
    else
      match List.lookup ck commands with
      | some entry => osTemplate entry os_type
      | none => some ck

/-- One call to `AishContext.update`, as a record (for reasoning about
sequences of updates). -/
structure UpdOp where
  command : Str
  result : Option Str
  type_ : Str
  entities : Option (List (Str × EntVal))
  exit_code : Int
deriving DecidableEq

/-- Apply one update record. -/
def apply_update (ctx : AishContext) (op : UpdOp) : AishContext :=
  ctx.update op.command op.result op.type_ op.entities op.exit_code

/-- Apply a sequence of update records in order. -/
def apply_updates (ctx : AishContext) (ops : List UpdOp) : AishContext :=
  ops.foldl apply_update ctx

/-- The most recent truthy `result` field across a history, if any. -/
def last_nonempty_result (hist : List HistoryEntry) : Option Str :=
  (hist.reverse.find? (fun e => truthyStr e.result)).map (fun e => e.result.getD [])

/-- The value the spec's invariant prescribes for `entities["last_output"]`:
the most recent non-empty result, or the initial `None` if there is none. -/
def expected_last_output (hist : List HistoryEntry) : Option EntVal :=
  match last_nonempty_result hist with
  | some r => some (EntVal.strv r)
  | none => some EntVal.nullv

/-
Concrete fixtures for witnesses and counterexamples.
-/

/-- A bare history entry with the given command string. -/
def cEntry (c : Str) : HistoryEntry := ⟨c, none, ("command").data, [], 0⟩

/-- A three-entry history `c1, c2, c3` (oldest first). -/
def hist3 : List HistoryEntry :=
  [cEntry (("c1").data), cEntry (("c2").data), cEntry (("c3").data)]

/-- Context with the three-entry history. -/
def ctx3 : AishContext := ⟨hist3, init_entities⟩

/-- Context whose `last_process` entity is the string `1234`. -/
def ctx_proc : AishContext :=
  ⟨[], ((("last_process").data), EntVal.strv (("1234").data)) :: init_entities⟩

/-- Context whose only history entry is the command `ls`. -/
def ctx_ls : AishContext := ⟨[cEntry (("ls").data)], init_entities⟩

/-- Context whose only history entry is the command `dir`. -/
def ctx_dir : AishContext := ⟨[cEntry (("dir").data)], init_entities⟩

/-- Commands table whose entry `foo` has neither the current OS key nor the
`linux` fallback (for the missing-template behaviour). -/
def cmds_c6 : Commands := [((("foo").data), [((("darwin").data), (("x").data))])]

/-- Pattern table mapping the builtin name `sysinfo` to a dangling value. -/
def pats_c1 : Patterns := [((("sysinfo").data), (("zzz").data))]

/-- Pattern table mapping the builtin name `sysinfo` to the builtin
`battery`. -/
def pats_c1w : Patterns := [((("sysinfo").data), (("battery").data))]

/-- Pattern table for the fuzzy-tier scenario. -/
def pats_c7 : Patterns := [((("show all files").data), (("files").data))]

/-- Commands table for the fuzzy-tier scenario. -/
def cmds_c7 : Commands := [((("files").data), [((("linux").data), (("ls").data))])]

/-- Pattern table whose key is itself a macro phrase. -/
def pats_c10 : Patterns := [((("run macro x").data), (("go").data))]

/-- Commands table for the macro-phrase pattern key. -/
def cmds_c10 : Commands := [((("go").data), [((("linux").data), (("g").data))])]

/-- Pattern table for the resolver-agreement witness. -/
def pats_c10w : Patterns := [((("list all files").data), (("files").data))]

/-- Commands table for the resolver-agreement witness. -/
def cmds_c10w : Commands :=
  [((("files").data), [((("linux").data), (("ls -la").data))])]

/-- Update sequence whose second update smuggles `last_output` in through the
`entities` argument. -/
def ops_c8 : List UpdOp :=
  [⟨("c1").data, some (("r1").data), ("command").data, none, 0⟩,
   ⟨("c2").data, none, ("command").data,
     some [((("output").data), EntVal.strv (("x").data))], 0⟩]

/-- Update sequence whose entities arguments avoid the key `output`. -/
def ops_c8w : List UpdOp :=
  [⟨("c1").data, some (("r1").data), ("command").data, none, 0⟩,
   ⟨("c2").data, none, ("command").data,
     some [((("dir").data), EntVal.strv (("/tmp").data))], 0⟩]

/-
Helper lemmas.
-/

@[simp]
theorem ob_some (a : Action) (f : Unit → Option Action) : ob (some a) f = some a := rfl

@[simp]
theorem ob_none (f : Unit → Option Action) : ob none f = f () := rfl

theorem containsSub_append_of (a b p : Str) (h : containsSub b p = true) :
    containsSub (a ++ b) p = true := by
  induction a with
  | nil => simpa using h
  | cons c t ih => simp [containsSub, ih]

theorem takeWhile_append_all (p : Char → Bool) (a b : Str) (h : ∀ c ∈ a, p c = true) :
    (a ++ b).takeWhile p = a ++ b.takeWhile p := by
  induction a with
  | nil => simp
  | cons x t ih =>
    simp only [List.cons_append, List.takeWhile_cons, h x (by simp)]
    rw [ih (fun c hc => h c (by simp [hc]))]
    simp

theorem lstrip_cons_nonws (c : Char) (t : Str) (h : isSpaceChar c = false) :
    lstrip (c :: t) = c :: t := by
  simp [lstrip, List.dropWhile_cons, h]

theorem rstrip_append_nonws (xs : Str) (c : Char) (h : isSpaceChar c = false) :
    rstrip (xs ++ [c]) = xs ++ [c] := by
  simp [rstrip, List.reverse_append, List.dropWhile_cons, h]

theorem digit_not_space (c : Char) (h : isDigitCh c = true) : isSpaceChar c = false := by
  simp only [isDigitCh, Bool.and_eq_true, decide_eq_true_eq] at h
  simp only [isSpaceChar, Bool.or_eq_false_iff, beq_eq_false_iff_ne]
  omega

theorem digit_lower_eq (c : Char) (h : isDigitCh c = true) : asciiLower c = c := by
  simp only [isDigitCh, Bool.and_eq_true, decide_eq_true_eq] at h
  have : (65 ≤ c.toNat && c.toNat ≤ 90) = false := by
    simp only [Bool.and_eq_false_iff, decide_eq_false_iff_not]
    omega
  simp [asciiLower, this]

theorem map_lower_digits : ∀ ds : Str, allDigits ds = true → ds.map asciiLower = ds
  | [], _ => rfl
  | x :: t, h => by
    simp only [allDigits, List.all_cons, Bool.and_eq_true] at h
    have ht := map_lower_digits t (by simpa [allDigits] using h.2)
    simp [digit_lower_eq x h.1, ht]

theorem pyLower_digits_append (ds sfx : Str) (h : allDigits ds = true)
    (hs : pyLower sfx = sfx) : pyLower (ds ++ sfx) = ds ++ sfx := by
  have hd := map_lower_digits ds h
  simp only [pyLower] at hs ⊢
  simp [List.map_append, hd, hs]

theorem pyStrip_digits_ago (ds : Str) (hne : ds ≠ []) (h : allDigits ds = true) :
    pyStrip (ds ++ (" commands ago").data) = ds ++ (" commands ago").data := by
  obtain ⟨d, t, rfl⟩ : ∃ d t, ds = d :: t := by
    cases ds with
    | nil => exact absurd rfl hne
    | cons d t => exact ⟨d, t, rfl⟩
  have hd : isDigitCh d = true := by
    simp only [allDigits, List.all_cons, Bool.and_eq_true] at h
    exact h.1
  have hsplit : (d :: t) ++ (" commands ago").data =
      ((d :: t) ++ (" commands ag").data) ++ ['o'] := by
    simp only [List.append_assoc]
    congr 1
  have hlast : rstrip (((d :: t) ++ (" commands ag").data) ++ ['o']) =
      ((d :: t) ++ (" commands ag").data) ++ ['o'] :=
    rstrip_append_nonws _ 'o' (by decide)
  calc pyStrip ((d :: t) ++ (" commands ago").data)
      = rstrip ((d :: t) ++ (" commands ago").data) := by
        simp only [pyStrip, List.cons_append]
        rw [lstrip_cons_nonws d _ (digit_not_space d hd)]
    _ = (d :: t) ++ (" commands ago").data := by rw [hsplit, hlast]

theorem beq_cons_false_of_head (d c : Char) (x y : Str) (h : d ≠ c) :
    ((d :: x) == (c :: y)) = false := by
  apply beq_eq_false_iff_ne.mpr
  intro he
  exact h (by injection he)

theorem digit_ne_lower (d c : Char) (hd : isDigitCh d = true) (hc : 97 ≤ c.toNat) :
    d ≠ c := by
  simp only [isDigitCh, Bool.and_eq_true, decide_eq_true_eq] at hd
  intro he
  rw [he] at hd
  omega

theorem repeat_contains_digit_false (d : Char) (rest : Str) (hd : isDigitCh d = true) :
    repeatTokens.contains (d :: rest) = false := by
  have h1 := beq_cons_false_of_head d 'a' rest (("gain").data) (digit_ne_lower d 'a' hd (by decide))
  have h2 := beq_cons_false_of_head d 'r' rest (("epeat").data) (digit_ne_lower d 'r' hd (by decide))
  have h3 := beq_cons_false_of_head d 't' rest (("hat").data) (digit_ne_lower d 't' hd (by decide))
  have h4 := beq_cons_false_of_head d 's' rest (("ame").data) (digit_ne_lower d 's' hd (by decide))
  simp only [repeatTokens, List.contains_cons, List.contains_nil, Bool.or_eq_false_iff]
  refine ⟨?_, ?_, ?_, ?_, ?_⟩
  · simpa using h1
  · simpa using h2
  · simpa using h3
  · simpa using h4
  · trivial

theorem pySplit_token_head (ds rest : Str) (hne : ds ≠ [])
    (hws : ∀ c ∈ ds, isSpaceChar c = false) :
    ∃ tl, pySplit (ds ++ ' ' :: rest) = ds :: tl := by
  obtain ⟨d, t, rfl⟩ : ∃ d t, ds = d :: t := by
    cases ds with
    | nil => exact absurd rfl hne
    | cons d t => exact ⟨d, t, rfl⟩
  have hd : isSpaceChar d = false := hws d (by simp)
  have ht : ∀ c ∈ t, (!isSpaceChar c) = true := by
    intro c hc
    simp [hws c (by simp [hc])]
  refine ⟨pySplitF ((d :: t) ++ ' ' :: rest).length
      ((t ++ ' ' :: rest).dropWhile (fun x => !isSpaceChar x)), ?_⟩
  simp only [pySplit, pySplitF, List.cons_append, List.dropWhile_cons, hd]
  simp only [Bool.false_eq_true, if_false, List.length_cons]
  rw [takeWhile_append_all _ t (' ' :: rest) ht]
  simp [List.takeWhile_cons, isSpaceChar]

theorem not_mem_of_contains_false {α : Type} [BEq α] [LawfulBEq α] (l : List α) (x : α)
    (h : l.contains x = false) : x ∉ l := by
  intro hm
  have hx := List.elem_iff.mpr hm
  rw [show l.contains x = l.elem x from rfl, hx] at h
  cases h

theorem reg_no_phrase :
    registry_keys.all (fun k => mb_phrases.all (fun p => !(List.isPrefixOf p k))) = true := by
  decide

theorem reg_nonempty : registry_keys.all (fun k => !(k == [])) = true := by decide

theorem inRegistry_mem (k : Str) (h : inRegistry k = true) : k ∈ registry_keys := by
  exact List.elem_iff.mp (by simpa [inRegistry, List.contains] using h)

theorem inRegistry_no_phrase (k : Str) (h : inRegistry k = true) :
    ∀ p ∈ mb_phrases, List.isPrefixOf p k = false := by
  intro p hp
  have h1 := List.all_eq_true.mp reg_no_phrase k (inRegistry_mem k h)
  have h2 := List.all_eq_true.mp h1 p hp
  simpa using h2

theorem inRegistry_ne_nil (k : Str) (h : inRegistry k = true) : k ≠ [] := by
  have h1 := List.all_eq_true.mp reg_nonempty k (inRegistry_mem k h)
  simpa using h1

theorem mbranch_none (u : Str) (h : ∀ p ∈ mb_phrases, List.isPrefixOf p u = false) :
    mbranch u = none := by
  have h1 := h (("create macro").data) (by decide)
  have h2 := h (("make macro").data) (by decide)
  have h3 := h (("run macro").data) (by decide)
  have h4 := h (("execute macro").data) (by decide)
  have h5 := h (("list macros").data) (by decide)
  have h6 := h (("show macros").data) (by decide)
  have h7 := h (("delete macro").data) (by decide)
  have h8 := h (("remove macro").data) (by decide)
  simp [mbranch, h1, h2, h3, h4, h5, h6, h7, h8]

theorem mloop_none (u : Str) (h : ∀ p ∈ mb_phrases, List.isPrefixOf p u = false) :
    mloop u = none := by
  have h1 := h (("create macro").data) (by decide)
  have h2 := h (("make macro").data) (by decide)
  have h3 := h (("run macro").data) (by decide)
  have h4 := h (("execute macro").data) (by decide)
  have h5 := h (("list macros").data) (by decide)
  have h6 := h (("show macros").data) (by decide)
  have h7 := h (("delete macro").data) (by decide)
  have h8 := h (("remove macro").data) (by decide)
  simp [mloop, h1, h2, h3, h4, h5, h6, h7, h8]

theorem strOrD_some_ne (v d : Str) (h : v ≠ []) : strOrD (some v) d = v := by
  simp [strOrD, beq_eq_false_iff_ne.mpr h]

theorem last_cmd_str_gt (hist : List HistoryEntry) (ents : List (Str × EntVal))
    (n : Nat) (hgt : hist.length < n) :
    AishContext.last_cmd_str ⟨hist, ents⟩ (n : Int) = Except.ok none := by
  have hc : ¬((n : Int) ≤ ((AishContext.mk hist ents).history.length : Int)) := by
    simp only []
    omega
  simp [AishContext.last_cmd_str, AishContext.last_command, hc]

theorem last_cmd_str_le (hist : List HistoryEntry) (ents : List (Str × EntVal))
    (n : Nat) (hn : 1 ≤ n) (hle : n ≤ hist.length) :
    AishContext.last_cmd_str ⟨hist, ents⟩ (n : Int) =
      Except.ok ((hist.get? (hist.length - n)).map (fun e => e.command)) := by
  have hc : (n : Int) ≤ ((AishContext.mk hist ents).history.length : Int) := by
    simp only []
    omega
  have hneg : (-(n : Int) < 0) := by omega
  have hb : (decide ((0 : Int) ≤ (hist.length : Int) + -(n : Int)) &&
      decide ((hist.length : Int) + -(n : Int) < (hist.length : Int))) = true := by
    simp only [Bool.and_eq_true, decide_eq_true_eq]
    omega
  have htn : ((hist.length : Int) + -(n : Int)).toNat = hist.length - n := by omega
  simp only [AishContext.last_cmd_str, AishContext.last_command, hc, if_true, if_pos hneg]
  simp only [hb, if_true, htn]
  cases hget : hist.get? (hist.length - n) with
  | none => simp [hget]
  | some e => simp [hget]

theorem last_key_inj (k : Str) (h : (("last_").data) ++ k = ("last_output").data) :
    k = ("output").data := by
  have hd := congrArg (List.drop 5) h
  have h5 : ((("last_").data).length) = 5 := by decide
  rw [← h5, List.drop_left] at hd
  simpa using hd

theorem lookup_foldl_dset_ne (items : List (Str × EntVal)) (m : List (Str × EntVal))
    (h : ∀ p ∈ items, (("last_").data) ++ p.1 ≠ ("last_output").data) :
    List.lookup (("last_output").data)
      (items.foldl (fun acc p => dset acc ((("last_").data) ++ p.1) p.2) m) =
    List.lookup (("last_output").data) m := by
  induction items generalizing m with
  | nil => rfl
  | cons p rest ih =>
    simp only [List.foldl_cons]
    rw [ih _ (fun q hq => h q (by simp [hq]))]
    have hb : ((("output").data) == p.1) = false :=
      beq_eq_false_iff_ne.mpr (fun he => h p (by simp) (by rw [← he]; decide))
    simp [dset, List.lookup, hb]

theorem expected_append (h : List HistoryEntry) (e : HistoryEntry) :
    expected_last_output (h ++ [e]) =
      if truthyStr e.result then some (EntVal.strv (e.result.getD []))
      else expected_last_output h := by
  simp only [expected_last_output, last_nonempty_result, List.reverse_append,
    List.reverse_cons, List.reverse_nil, List.nil_append, List.cons_append]
  cases he : truthyStr e.result with
  | false => simp [List.find?, he]
  | true => simp [List.find?, he]

theorem update_step (ctx : AishContext) (op : UpdOp)
    (hop : ∀ p ∈ op.entities.getD [], p.1 ≠ ("output").data)
    (hinv : dget ctx.entities (("last_output").data) = expected_last_output ctx.history) :
    dget (apply_update ctx op).entities (("last_output").data) =
      expected_last_output (apply_update ctx op).history := by
  rcases op with ⟨cmd, res, ty, ents, ec⟩
  cases ents with
  | none =>
    simp only [apply_update, AishContext.update, expected_append]
    cases hres : truthyStr res with
    | true => simp [dget, dset, List.lookup]
    | false =>
      simp only [Bool.false_eq_true, if_false]
      exact hinv
  | some m =>
    simp only [apply_update, AishContext.update, expected_append]
    have hlook : List.lookup (("last_output").data)
        (if (m == []) = true then ctx.entities
          else m.foldl (fun acc p => dset acc ((("last_").data) ++ p.1) p.2) ctx.entities) =
        List.lookup (("last_output").data) ctx.entities := by
      by_cases hm : (m == []) = true
      · simp [hm]
      · simp only [Bool.not_eq_true] at hm
        simp only [hm, Bool.false_eq_true, if_false]
        apply lookup_foldl_dset_ne
        intro p hp he
        exact hop p (by simpa using hp) (last_key_inj p.1 he)
    cases hres : truthyStr res with
    | true => simp [dget, dset, List.lookup]
    | false =>
      simp only [Bool.false_eq_true, if_false]
      exact hlook.trans hinv

theorem updates_inv (ops : List UpdOp) : ∀ ctx : AishContext,
    (∀ op ∈ ops, ∀ p ∈ op.entities.getD [], p.1 ≠ ("output").data) →
    dget ctx.entities (("last_output").data) = expected_last_output ctx.history →
    dget (apply_updates ctx ops).entities (("last_output").data) =
      expected_last_output (apply_updates ctx ops).history := by
  induction ops with
  | nil =>
    intro ctx _ hinv
    simpa [apply_updates] using hinv
  | cons op rest ih =>
    intro ctx hops hinv
    have hstep := update_step ctx op (hops op (by simp)) hinv
    have := ih (apply_update ctx op) (fun o ho => hops o (by simp [ho])) hstep
    simpa [apply_updates] using this

/-
Claims.
-/

/-- Claim C5: for every input that is empty or whitespace-only after
normalization, `parse_command` returns the distinct no-actionable-input
sentinel (`none`, the Python `None` of parser.py lines 57-59), which is
neither a builtin action nor a shell action. -/
theorem C5_empty_input (user_input : Str) (commands : Commands) (patterns : Patterns)
    (os : Str) (h : normalize user_input = []) :
    parse_command user_input commands patterns os = none := by
  simp [parse_command, h]

/-- Witness for C5 at the whitespace-only input `"   "`. -/
theorem C5_empty_input_witness :
    parse_command (("   ").data) [] [] (("linux").data) = none :=
  C5_empty_input (("   ").data) [] [] (("linux").data) (by decide)

/-- Claim C4 (code bug): the "more detail" modifier never appends a flag.
`detect_os()` returns `platform.system().lower()` (`"linux"`, `"darwin"`,
`"windows"`), but context.py lines 82-87 compare `OS_NAME` against the
capitalised literals `"Linux"`, `"Darwin"`, `"Windows"`, so for every value
`detect_os` can produce the rule falls through and `"detailed"` is returned
unchanged — even with a previous `ls`/`dir` command, where the spec demands
`ls -la` (POSIX) or `dir /q /a` (Windows). -/
theorem C4_detail_flag_dead :
    resolve_with_context (("detailed").data) ctx_ls (("linux").data) = ("detailed").data ∧
    resolve_with_context (("detailed").data) ctx_ls (("darwin").data) = ("detailed").data ∧
    resolve_with_context (("detailed").data) ctx_dir (("windows").data) = ("detailed").data := by
  decide

/-- Claim C6 (code bug): a commands-table entry lacking both the current OS
key and the `linux` fallback does not degrade to an empty template.
`commands_json[key].get(current_os, commands_json[key].get("linux"))` is
Python `None`, and the f-string of parser.py line 120 renders it as the
literal `None`: input `foo a` yields the shell command `None a`, not the
bare argument `a` that the spec's empty-template policy prescribes. -/
theorem C6_missing_template_renders_none :
    parse_command (("foo a").data) cmds_c6 [] (("windows").data) =
      some (Action.shell (some (("None a").data))) ∧
    ("None a").data ≠ ("a").data := by
  decide

/-- Claim C9: pronoun matching is substring-based.  For every input whose
stripped lowercased text contains `it` anywhere, is not one of the four
repeat tokens, does not contain `commands ago`, and does not trigger the
`them` rule, if `entities["last_process"]` is set (truthy) then
`resolve_with_context` returns `kill <last_process>`, discarding the rest of
the input. -/
theorem C9_it_substring (user_input : Str) (ctx : AishContext) (os_name : Str)
    (v : EntVal)
    (hrep : repeatTokens.contains (pyLower (pyStrip user_input)) = false)
    (hago : containsSub (pyLower (pyStrip user_input)) (("commands ago").data) = false)
    (hthem : (containsSub (pyLower (pyStrip user_input)) (("them").data) &&
      truthyEnt (dget ctx.entities (("last_files").data))) = false)
    (hit : containsSub (pyLower (pyStrip user_input)) (("it").data) = true)
    (hproc : dget ctx.entities (("last_process").data) = some v)
    (htru : truthyEnt (some v) = true) :
    resolve_with_context user_input ctx os_name = ("kill ").data ++ entFmt v := by
  have hrep' := not_mem_of_contains_false _ _ hrep
  simp [resolve_with_context, hrep', hago, hthem, hit, hproc, htru]

/-- Witness for C9: `git status` contains `it`, so with `last_process` set
to `1234` the whole input collapses to `kill 1234`. -/
theorem C9_it_substring_witness :
    resolve_with_context (("git status").data) ctx_proc (("linux").data) =
      ("kill 1234").data := by
  have h := C9_it_substring (("git status").data) ctx_proc (("linux").data)
    (EntVal.strv (("1234").data)) (by decide) (by decide) (by decide) (by decide)
    (by decide) (by decide)
  exact h.trans (by decide)

/-- Claim C3 (amended): only the plural form `<positive integer> commands
ago` is recognised (context.py line 65 tests for the literal substring
`commands ago`).  For such an input with integer `N` and history length `L`:
if `N > L` the original text is returned unchanged without error; if
`N <= L` and the stored command string is non-empty, the `N`th-from-last
command string is returned (an empty stored string falls back to the input
by Python `or`). -/
theorem C3_relative_lookup (ds : Str) (n : Nat) (hist : List HistoryEntry)
    (ents : List (Str × EntVal)) (os_name : Str) (e : HistoryEntry)
    (hne : ds ≠ []) (hdig : allDigits ds = true)
    (hint : pyInt ds = some (n : Int)) (hn : 1 ≤ n) :
    (hist.length < n →
      resolve_with_context (ds ++ (" commands ago").data) ⟨hist, ents⟩ os_name =
        ds ++ (" commands ago").data) ∧
    (n ≤ hist.length → hist.get? (hist.length - n) = some e → e.command ≠ [] →
      resolve_with_context (ds ++ (" commands ago").data) ⟨hist, ents⟩ os_name =
        e.command) := by
  obtain ⟨d, t, rfl⟩ : ∃ d t, ds = d :: t := by
    cases ds with
    | nil => exact absurd rfl hne
    | cons d t => exact ⟨d, t, rfl⟩
  have hd : isDigitCh d = true := by
    simp only [allDigits, List.all_cons, Bool.and_eq_true] at hdig
    exact hdig.1
  have hwsfree : ∀ c ∈ (d :: t), isSpaceChar c = false := by
    intro c hc
    exact digit_not_space c (List.all_eq_true.mp hdig c hc)
  have htext : pyLower (pyStrip ((d :: t) ++ (" commands ago").data)) =
      (d :: t) ++ (" commands ago").data := by
    rw [pyStrip_digits_ago _ hne hdig, pyLower_digits_append _ _ hdig (by decide)]
  have hrep : ((d :: t) ++ (" commands ago").data) ∉ repeatTokens := by
    have := repeat_contains_digit_false d (t ++ (" commands ago").data) hd
    exact not_mem_of_contains_false _ _ (by simpa using this)
  have hcont : containsSub ((d :: t) ++ (" commands ago").data)
      (("commands ago").data) = true :=
    containsSub_append_of _ _ _ (by decide)
  have hdata : (" commands ago").data = ' ' :: ("commands ago").data := by decide
  obtain ⟨tl, hsplit⟩ := pySplit_token_head (d :: t) (("commands ago").data) hne hwsfree
  rw [← hdata] at hsplit
  constructor
  · intro hgt
    have hlc := last_cmd_str_gt hist ents n hgt
    simp only [resolve_with_context, htext, hrep, if_false, hcont, if_true,
      ago_branch, hsplit, hint, hlc]
    simp [strOrD]
    intro hm
    exact absurd hm (by simpa using hrep)
  · intro hle hget hcmd
    have hlc := last_cmd_str_le hist ents n hn hle
    rw [hget] at hlc
    simp only [resolve_with_context, htext, hrep, if_false, hcont, if_true,
      ago_branch, hsplit, hint, hlc]
    simp [strOrD_some_ne _ _ hcmd]
    intro hm
    exact absurd hm (by simpa using hrep)

/-- Witness for C3: with the three-entry history, `2 commands ago` returns
the 2nd-from-last command `c2`, and `5 commands ago` returns the input
unchanged. -/
theorem C3_relative_lookup_witness :
    resolve_with_context (("2 commands ago").data) ctx3 (("linux").data) =
      ("c2").data ∧
    resolve_with_context (("5 commands ago").data) ctx3 (("linux").data) =
      ("5 commands ago").data := by
  constructor
  · have h := (C3_relative_lookup (("2").data) 2 hist3 init_entities (("linux").data)
      (cEntry (("c2").data)) (by decide) (by decide) (by decide) (by decide)).2
      (by decide) (by decide) (by decide)
    exact (by decide : (("2 commands ago").data) =
      (("2").data) ++ (" commands ago").data) ▸ h
  · have h := (C3_relative_lookup (("5").data) 5 hist3 init_entities (("linux").data)
      (cEntry (("c1").data)) (by decide) (by decide) (by decide) (by decide)).1
      (by decide)
    exact (by decide : (("5 commands ago").data) =
      (("5").data) ++ (" commands ago").data) ▸ h

/-- Counterexample to claim C3 as stated: the singular form is not
recognised.  With a history of three entries, `2 command ago` (claimed to be
matched with optional pluralization) is returned unchanged instead of the
2nd-from-last command `c2`, because context.py line 65 tests only for the
literal substring `commands ago`. -/
theorem C3_counterexample :
    resolve_with_context (("2 command ago").data) ctx3 (("linux").data) =
      ("2 command ago").data ∧
    ("2 command ago").data ≠ ("c2").data ∧
    hist3.get? (hist3.length - 2) = some (cEntry (("c2").data)) := by
  decide

/-- Counterexample to claim C8 as stated: an update whose `entities`
argument contains the key `output` overwrites `last_output` even though its
own `result` is empty.  After `update("c1", result="r1")` followed by
`update("c2", result=None, entities={"output": "x"})`, `last_output` is `x`
while the most recent non-empty result across the history is `r1`. -/
theorem C8_counterexample :
    dget (apply_updates AishContext.init ops_c8).entities (("last_output").data) =
      some (EntVal.strv (("x").data)) ∧
    expected_last_output (apply_updates AishContext.init ops_c8).history =
      some (EntVal.strv (("r1").data)) ∧
    dget (apply_updates AishContext.init ops_c8).entities (("last_output").data) ≠
      expected_last_output (apply_updates AishContext.init ops_c8).history := by
  decide

/-- Claim C8 (amended): after every sequence of updates none of whose
`entities` arguments contains the key `output`, `entities["last_output"]`
equals the most recent truthy result across the whole history (and remains
the initial `None` when no entry had one); an update with an empty or absent
result leaves it unchanged. -/
theorem C8_last_output_invariant (ops : List UpdOp)
    (hops : ∀ op ∈ ops, ∀ p ∈ op.entities.getD [], p.1 ≠ ("output").data) :
    dget (apply_updates AishContext.init ops).entities (("last_output").data) =
      expected_last_output (apply_updates AishContext.init ops).history :=
  updates_inv ops AishContext.init hops (by decide)

/-- Witness for C8: an update with a result, then one with no result but a
`dir` entity, keeps `last_output` at the first result. -/
theorem C8_last_output_invariant_witness :
    dget (apply_updates AishContext.init ops_c8w).entities (("last_output").data) =
      expected_last_output (apply_updates AishContext.init ops_c8w).history :=
  C8_last_output_invariant ops_c8w (by decide)

/-- Counterexample to claim C1 as stated: when the pattern-table value is
neither a builtin name nor a commands-table key, tier 1 returns nothing and
the builtin head path of tier 2 wins.  `sysinfo` is both a pattern key
(mapped to the dangling value `zzz`) and a builtin name, yet resolution
yields the tier-2 builtin head action, not an action mapped by the pattern
table. -/
theorem C1_counterexample :
    parse_command (("sysinfo").data) [] pats_c1 (("linux").data) =
      some (Action.builtin (("sysinfo").data) []) ∧
    tier1_pattern pats_c1 [] (("linux").data) (("sysinfo").data) = none ∧
    List.lookup (("sysinfo").data) pats_c1 = some (("zzz").data) ∧
    inRegistry (("sysinfo").data) = true := by
  decide

/-- Claim C1 (amended): for every input whose normalized case-folded form is
a pattern key and simultaneously a builtin name, provided the pattern's
mapped value resolves (it is a builtin name or a commands-table key), tier 1
wins: `parse_command` returns the action mapped by the pattern table, not
the tier-2 builtin head action. -/
theorem C1_pattern_tier_wins (user_input : Str) (patterns : Patterns)
    (commands : Commands) (os : Str) (v : Str) (act : Action)
    (hpat : List.lookup (pyLower (normalize user_input)) patterns = some v)
    (hreg : inRegistry (pyLower (normalize user_input)) = true)
    (hres : resolve_pattern_value commands os v = some act) :
    parse_command user_input commands patterns os = some act := by
  have hne : normalize user_input ≠ [] := by
    intro h
    exact inRegistry_ne_nil _ hreg (by simp [pyLower, h])
  have hbeq : (normalize user_input == []) = false := beq_eq_false_iff_ne.mpr hne
  have hm := mbranch_none _ (inRegistry_no_phrase _ hreg)
  simp only [parse_command, hbeq, Bool.false_eq_true, if_false, hm, ob_none]
  simp [tier1_pattern, hpat, hres]

/-- Witness for C1: `Sysinfo` normalizes and case-folds to the pattern key
`sysinfo` (also a builtin name) mapped to the builtin `battery`; the pattern
action wins over the `sysinfo` head builtin. -/
theorem C1_pattern_tier_wins_witness :
    parse_command (("Sysinfo").data) [] pats_c1w (("linux").data) =
      some (Action.builtin (("battery").data) []) :=
  C1_pattern_tier_wins (("Sysinfo").data) pats_c1w [] (("linux").data)
    (("battery").data) (Action.builtin (("battery").data) [])
    (by decide) (by decide) (by decide)

/-- Counterexample to claim C2 as stated: `make macro x` matches none of the
three tables, exactly or fuzzily, as a whole or in its first token, yet it
is not returned as shell passthrough — the macro-phrase branch of parser.py
lines 65-86 turns it into the builtin action `macro_create ["x"]`. -/
theorem C2_counterexample :
    normalize (("make macro x").data) ≠ [] ∧
    List.lookup (pyLower (normalize (("make macro x").data))) ([] : Patterns) = none ∧
    inRegistry (pyLower (normalize (("make macro x").data))) = false ∧
    List.lookup (pyLower (normalize (("make macro x").data))) ([] : Commands) = none ∧
    inRegistry (pyLower ((pySplit (normalize (("make macro x").data))).headD [])) = false ∧
    get_close_matches (pyLower (normalize (("make macro x").data))) registry_keys = none ∧
    get_close_matches (pyLower ((pySplit (normalize (("make macro x").data))).headD []))
      registry_keys = none ∧
    parse_command (("make macro x").data) [] [] (("linux").data) =
      some (Action.builtin (("macro_create").data) [("x").data]) ∧
    some (Action.builtin (("macro_create").data) [("x").data]) ≠
      some (Action.shell (some (normalize (("make macro x").data)))) := by
  decide

/-- Claim C2 (amended): for every non-empty input that does not begin with
one of the eight macro phrase prefixes and that is not, exactly or fuzzily
at cutoff 0.6, a pattern-table key, a builtin name, or a command-table key —
neither as a whole nor in its first token — `parse_command` returns a shell
action whose command line is the input unmodified except for whitespace
normalization. -/
theorem C2_passthrough (user_input : Str) (patterns : Patterns)
    (commands : Commands) (os : Str)
    (h0 : normalize user_input ≠ [])
    (hmac : ∀ p ∈ mb_phrases, List.isPrefixOf p (pyLower (normalize user_input)) = false)
    (hpatW : List.lookup (pyLower (normalize user_input)) patterns = none)
    (hregW : inRegistry (pyLower (normalize user_input)) = false)
    (hcmdW : List.lookup (pyLower (normalize user_input)) commands = none)
    (hregH : inRegistry (pyLower ((pySplit (normalize user_input)).headD [])) = false)
    (hpatH : List.lookup (pyLower ((pySplit (normalize user_input)).headD [])) patterns = none)
    (hcmdH : List.lookup (pyLower ((pySplit (normalize user_input)).headD [])) commands = none)
    (hfpat : get_close_matches (pyLower (normalize user_input)) (patterns.map Prod.fst) = none)
    (hfcmd : get_close_matches (pyLower ((pySplit (normalize user_input)).headD []))
      (commands.map Prod.fst) = none) :
    parse_command user_input commands patterns os =
      some (Action.shell (some (normalize user_input))) := by
  have hbeq : (normalize user_input == []) = false := beq_eq_false_iff_ne.mpr h0
  simp only [parse_command, hbeq, Bool.false_eq_true, if_false,
    mbranch_none _ hmac, mloop_none _ hmac, ob_none,
    tier1_pattern, hpatW, tier2_head, hregH, hpatH, tier2_cmd, hcmdH,
    tier3_fuzzy_pattern, hfpat, tier3_fuzzy_cmd, hfcmd]

/-- Witness for C2 at `frobnicate the widgets` with empty tables. -/
theorem C2_passthrough_witness :
    parse_command (("frobnicate the widgets").data) [] [] (("linux").data) =
      some (Action.shell (some (("frobnicate the widgets").data))) := by
  have h := C2_passthrough (("frobnicate the widgets").data) [] [] (("linux").data)
    (by decide) (by decide) (by decide) (by decide) (by decide) (by decide)
    (by decide) (by decide) (by decide) (by decide)
  exact h.trans (by decide)

/-- Claim C7: the fuzzy tier's cutoff boundary and tail behaviour.  (i) a
pattern key whose similarity to the normalized input is exactly 0.6 passes
the cutoff; (ii) a key at similarity 0.59 (or lower) is rejected; (iii) when
every key is rejected `get_close_matches` yields nothing, so resolution
falls through to the next tier; (iv) when the pattern fuzzy tier is reached
and succeeds, `parse_command` returns exactly the action the matched key's
value resolves to — the tail tokens are dropped (the result is built by
`resolve_pattern_value`, which never sees the tail). -/
theorem C7_fuzzy_cutoff :
    (∀ a b : Str, ratioQ a b = 3 / 5 → cutoffAccept a b = true) ∧
    (∀ a b : Str, ratioQ a b ≤ 59 / 100 → cutoffAccept a b = false) ∧
    (∀ (word : Str) (keys : List Str), (∀ k ∈ keys, cutoffAccept k word = false) →
      get_close_matches word keys = none) ∧
    (∀ (user_input : Str) (patterns : Patterns) (commands : Commands) (os : Str)
      (cand : Str) (act : Action),
      normalize user_input ≠ [] →
      (∀ p ∈ mb_phrases, List.isPrefixOf p (pyLower (normalize user_input)) = false) →
      List.lookup (pyLower (normalize user_input)) patterns = none →
      inRegistry (pyLower ((pySplit (normalize user_input)).headD [])) = false →
      List.lookup (pyLower ((pySplit (normalize user_input)).headD [])) patterns = none →
      List.lookup (pyLower ((pySplit (normalize user_input)).headD [])) commands = none →
      get_close_matches (pyLower (normalize user_input)) (patterns.map Prod.fst) = some cand →
      (List.lookup cand patterns).bind (resolve_pattern_value commands os) = some act →
      parse_command user_input commands patterns os = some act) := by
  refine ⟨?_, ?_, ?_, ?_⟩
  · intro a b h
    simp only [cutoffAccept, h, decide_eq_true_eq]
    rw [Rat.mkRat_eq_div]
    norm_num
  · intro a b h
    simp only [cutoffAccept, decide_eq_false_iff_not, not_le]
    calc ratioQ a b ≤ 59 / 100 := h
      _ < mkRat 3 5 := by
        rw [Rat.mkRat_eq_div]
        norm_num
  · intro word keys h
    have hf : keys.filter (fun x => cutoffAccept x word) = [] :=
      List.filter_eq_nil_iff.mpr (fun k hk => by simp [h k hk])
    simp [get_close_matches, hf]
  · intro user_input patterns commands os cand act h0 hmac hpatW hregH hpatH hcmdH hgcm hbind
    have hbeq : (normalize user_input == []) = false := beq_eq_false_iff_ne.mpr h0
    obtain ⟨k, hk, hr⟩ := Option.bind_eq_some.mp hbind
    simp only [parse_command, hbeq, Bool.false_eq_true, if_false,
      mbranch_none _ hmac, ob_none,
      tier1_pattern, hpatW, tier2_head, hregH, hpatH, tier2_cmd, hcmdH,
      tier3_fuzzy_pattern, hgcm, hk, hr, ob_some]

/-- Witness for C7: `abc` against `abcdefg` has ratio exactly 3/5 and is
accepted; `zz` against `zzxxxxxx` has ratio 2/5 (below 0.59) and is
rejected; with only rejected keys the fuzzy match yields nothing; and the
typo `show al files` fuzzily resolves to the pattern `show all files`,
dropping the tail. -/
theorem C7_fuzzy_cutoff_witness :
    cutoffAccept (("abc").data) (("abcdefg").data) = true ∧
    cutoffAccept (("zz").data) (("zzxxxxxx").data) = false ∧
    get_close_matches (("xyz").data) [("ab").data] = none ∧
    parse_command (("show al files").data) cmds_c7 pats_c7 (("linux").data) =
      some (Action.shell (some (("ls").data))) := by
  refine ⟨?_, ?_, ?_, ?_⟩
  · apply C7_fuzzy_cutoff.1
    have h : ratioQ (("abc").data) (("abcdefg").data) = mkRat 6 10 := by decide
    rw [h, Rat.mkRat_eq_div]
    norm_num
  · apply C7_fuzzy_cutoff.2.1
    have h : ratioQ (("zz").data) (("zzxxxxxx").data) = mkRat 2 5 := by decide
    rw [h, Rat.mkRat_eq_div]
    norm_num
  · apply C7_fuzzy_cutoff.2.2.1
    intro k hk
    rcases List.mem_singleton.mp hk with rfl
    decide
  · exact C7_fuzzy_cutoff.2.2.2 (("show al files").data) pats_c7 cmds_c7
      (("linux").data) (("show all files").data)
      (Action.shell (some (("ls").data)))
      (by decide) (by decide) (by decide) (by decide) (by decide) (by decide)
      (by decide) (by decide)

/-- Counterexample to claim C10 as stated: a pattern key that begins with a
macro phrase breaks the agreement between the two resolvers.  For the
pattern `run macro x` mapped to command key `go`, `parse_command` returns
the builtin macro action while `executor.resolve_command` returns the shell
template `g`. -/
theorem C10_counterexample :
    pyStrip (("run macro x").data) = normalize (("run macro x").data) ∧
    List.lookup (pyLower (pyStrip (("run macro x").data))) pats_c10 =
      some (("go").data) ∧
    (List.lookup (("go").data) cmds_c10).isSome = true ∧
    inRegistry (("go").data) = false ∧
    parse_command (("run macro x").data) cmds_c10 pats_c10 (("linux").data) =
      some (Action.builtin (("macro_run").data) [("x").data]) ∧
    resolve_command (("run macro x").data) pats_c10 cmds_c10 (("linux").data) =
      some (("g").data) ∧
    parse_command (("run macro x").data) cmds_c10 pats_c10 (("linux").data) ≠
      some (Action.shell (resolve_command (("run macro x").data) pats_c10 cmds_c10
        (("linux").data))) := by
  decide

/-- Claim C10 (amended): the two resolvers agree on exact pattern hits for
every non-empty input that is whitespace-normal (stripping equals
normalizing), does not begin with a macro phrase prefix, and whose
stripped lowercased form is a pattern key mapped to a non-empty
command-table key that is not a builtin name: `parse_command` (called with
the detected OS) returns a shell action whose command line equals the
result of `executor.resolve_command` on the same input. -/
theorem C10_resolver_agreement (user_input : Str) (patterns : Patterns)
    (commands : Commands) (os : Str) (v : Str)
    (h0 : normalize user_input ≠ [])
    (hws : pyStrip user_input = normalize user_input)
    (hmac : ∀ p ∈ mb_phrases, List.isPrefixOf p (pyLower (normalize user_input)) = false)
    (hpat : List.lookup (pyLower (normalize user_input)) patterns = some v)
    (hv : v ≠ [])
    (hreg : inRegistry v = false)
    (hcmd : (List.lookup v commands).isSome = true) :
    parse_command user_input commands patterns os =
      some (Action.shell (resolve_command user_input patterns commands os)) := by
  obtain ⟨entry, hentry⟩ := Option.isSome_iff_exists.mp hcmd
  have hbeq : (normalize user_input == []) = false := beq_eq_false_iff_ne.mpr h0
  have hveq : (v == []) = false := beq_eq_false_iff_ne.mpr hv
  simp only [parse_command, hbeq, Bool.false_eq_true, if_false,
    mbranch_none _ hmac, ob_none, tier1_pattern, hpat, resolve_pattern_value,
    hreg, hentry, ob_some,
    resolve_command, hws, hveq]

/-- Witness for C10: `List all files` hits the pattern `list all files`
mapped to command key `files`, and both resolvers produce `ls -la`. -/
theorem C10_resolver_agreement_witness :
    parse_command (("List all files").data) cmds_c10w pats_c10w (("linux").data) =
      some (Action.shell (resolve_command (("List all files").data) pats_c10w
        cmds_c10w (("linux").data))) :=
  C10_resolver_agreement (("List all files").data) pats_c10w cmds_c10w
    (("linux").data) (("files").data)
    (by decide) (by decide) (by decide) (by decide) (by decide) (by decide) (by decide)

end AISH
